import Mathlib

/-!
Verification development for the BI-STD governance tooling.

The definitions below are shallow embeddings of the Python sources:
* `REFERECNE FILES/scripts/bi_governance_check.py` (class `BIValidator`):
  skip-comment handling, per-file rule checks, reference collection,
  unused-measure detection, scoring, CSV status and exit code;
* `generate_measure_docs.py` (`generate_docs`): measure DAX extraction;
* `REFERECNE FILES/scripts/bi_doc_generator.py` (`DocBuilder`):
  relationship parsing and Fact/Dimension classification;
* `scripts/generate_live_docs.py` (`generate_technical_design_document`):
  heuristic fact/dimension table identification.

Text content is modelled as `List Char`.  Regular-expression searches from
the sources are embedded as explicit scanning functions with the same
matching semantics (case-insensitive where the source passes
`re.IGNORECASE`).  Presentation-only message strings are abstracted into
structured fields (codes, rule names, name lists); no behaviour relevant to
the diagnostics, suppression, scoring or classification logic is dropped.
-/

namespace BIStd

/-- Text content, character by character. -/
abbrev Str := List Char

/-- Double-quote character. -/
def quoteD : Char := Char.ofNat 34

/-- Single-quote character. -/
def quoteS : Char := Char.ofNat 39

/-- Opening curly brace character. -/
def braceL : Char := Char.ofNat 123

/-- Closing curly brace character. -/
def braceR : Char := Char.ofNat 125

/-- Python `\s` character class (ASCII range, as used by the sources). -/
def isWS (c : Char) : Bool :=
  c = ' ' || c = '\t' || c = '\n' || c = Char.ofNat 13 || c = Char.ofNat 11 ||
    c = Char.ofNat 12

/-- Lower-casing used for `re.IGNORECASE` comparisons. -/
def lowC (c : Char) : Char := c.toLower

/-- Python `\w` character class (ASCII inputs). -/
def isWordC (c : Char) : Bool := c.isAlphanum || c = '_'

/-- Case-insensitive "the first list is a leading segment of the second". -/
def ciStarts : Str → Str → Bool
  | [], _ => true
  | _ :: _, [] => false
  | p :: ps, c :: cs => (lowC p = lowC c) && ciStarts ps cs

/-- Match a sequence of literal parts separated by `\s*`, anchored at the
start of the text, case-insensitively.  This is the shape of every
`re.search` pattern `lit1\s*lit2\s*...` used by `bi_governance_check.py`. -/
def matchPartsAt : List Str → Str → Bool
  | [], _ => true
  | p :: ps, s => ciStarts p s && matchPartsAt ps ((s.drop p.length).dropWhile isWS)

/-- Unanchored search for `matchPartsAt` (the `re.search` behaviour). -/
def searchParts (ps : List Str) : Str → Bool
  | [] => matchPartsAt ps []
  | c :: rest => matchPartsAt ps (c :: rest) || searchParts ps rest

/-- The parts of the pattern `//\s*SKIP_CHECK\s*:\s*<code>` from
`BIValidator.has_skip_comment`. -/
def skipParts (code : Str) : List Str :=
  [("//").toList, ("SKIP_CHECK").toList, (":").toList, code]

/-- Embedding of the first `re.search` in `BIValidator.has_skip_comment`:
does the content contain `//\s*SKIP_CHECK\s*:\s*<code>` (IGNORECASE)? -/
def hasSkipPattern (content : Str) (code : Str) : Bool :=
  searchParts (skipParts code) content

/-- The `code_aliases` table of `BIValidator.has_skip_comment`. -/
def code_aliases : List (String × List String) :=
  [("bi_directional_filters", ["bi_di_filter", "bi_directional", "bidi"]),
   ("auto_date_time", ["auto_datetime", "autodate"]),
   ("hardcoded_colors", ["hardcoded_color", "colors"]),
   ("measure_description", ["measure_desc", "description"])]

/-- The `codes_to_check` list built by `BIValidator.has_skip_comment`:
the requested code, extended by every alias group it belongs to. -/
def codesToCheck (c : String) : List String :=
  c :: code_aliases.foldr
    (fun e acc => if c = e.1 || e.2.contains c then (e.1 :: e.2) ++ acc else acc) []

/-- Embedding of `BIValidator.has_skip_comment` (boolean result): true when
a skip comment for the code or any of its aliases occurs in the content. -/
def has_skip_comment (content : Str) (checkCode : String) : Bool :=
  (codesToCheck checkCode).any (fun code => hasSkipPattern content code.toList)

/-- The members of one alias group entry (canonical code plus aliases). -/
def aliasGroupOf (e : String × List String) : List String := e.1 :: e.2

/-- Case-sensitive "the first list is a leading segment of the second". -/
def litStarts : Str → Str → Bool
  | [], _ => true
  | _ :: _, [] => false
  | p :: ps, c :: cs => p = c && litStarts ps cs

/-- Single-pass scanner for the `re.findall` pattern `\[([^\]]+)\]` of
`BIValidator.collect_references`: outside a bracket (`none`) an opening
`[` starts a capture; inside (`some revInner`, the capture reversed) a `]`
closes it, emitting the capture when non-empty (the regex requires at least
one captured character, and an unterminated opening bracket yields no
further matches, exactly as the left-to-right non-overlapping engine
behaves). -/
def extractRefsAux : Option Str → Str → List Str
  | none, [] => []
  | none, c :: rest =>
    if c = '[' then extractRefsAux (some []) rest else extractRefsAux none rest
  | some _, [] => []
  | some revInner, c :: rest =>
    if c = ']' then
      if revInner.isEmpty then extractRefsAux none rest
      else revInner.reverse :: extractRefsAux none rest
    else extractRefsAux (some (c :: revInner)) rest

/-- The captures of `re.findall(r'\[([^\]]+)\]', content)`. -/
def extractRefs (s : Str) : List Str := extractRefsAux none s

/-- Characters of the (IGNORECASE) class `[^measure]` in the measure regex of
`BIValidator.check_measure_descriptions`: the body may not contain them. -/
def inMeasClass (c : Char) : Bool := (("measur").toList).contains (lowC c)

/-- The lookahead `(?=measure\s+)` of the measure regex. -/
def measLook (s : Str) : Bool :=
  ciStarts (("measure").toList) s &&
    (match s.drop 7 with
     | c :: _ => isWS c
     | [] => false)

/-- Lazy capture `([^measure]*?)` of the measure regex, stopping at the
lookahead `measure\s+` or the end anchor `$` (which in Python also matches
just before a final newline); `none` when a class-excluded character is hit
first, in which case the whole match at this position fails. -/
def takeBody : Str → Option (Str × Str)
  | [] => some ([], [])
  | c :: rest =>
    if measLook (c :: rest) || (c :: rest) = ['\n'] then some ([], c :: rest)
    else if inMeasClass c then none
    else (takeBody rest).map (fun p => (c :: p.1, p.2))

/-- Attempt of the regex
`measure\s+(["\']?)(\w+)\1\s*=([^measure]*?)(?=measure\s+|$)`
(IGNORECASE) at the current position: on success the captured name,
captured body and the remaining text after the match. -/
def matchMeasStart (s : Str) : Option (Str × Str × Str) :=
  if ciStarts (("measure").toList) s then
    let r1 := s.drop 7
    if (r1.takeWhile isWS).isEmpty then none
    else
      let r2 := r1.dropWhile isWS
      match r2 with
      | q :: r3 =>
        if q = quoteD || q = quoteS then
          let name := r3.takeWhile isWordC
          if name.isEmpty then none
          else
            match r3.drop name.length with
            | q2 :: r4 =>
              if q2 = q then
                match r4.dropWhile isWS with
                | c :: r5 =>
                  if c = '=' then (takeBody r5).map (fun p => (name, p.1, p.2))
                  else none
                | [] => none
              else none
            | [] => none
        else
          let name := r2.takeWhile isWordC
          if name.isEmpty then none
          else
            match (r2.drop name.length).dropWhile isWS with
            | c :: r5 =>
              if c = '=' then (takeBody r5).map (fun p => (name, p.1, p.2))
              else none
            | [] => none
      | [] => none
  else none

/-- The `re.finditer` scan of the measure regex: fuel-driven left-to-right,
non-overlapping (fuel bounds the iteration count; one character is consumed
per step at minimum, so `s.length` fuel is always enough). -/
def findMeasFrom : Nat → Str → List (Str × Str)
  | 0, _ => []
  | _ + 1, [] => []
  | fuel + 1, c :: rest =>
    match matchMeasStart (c :: rest) with
    | some (n, b, after) => (n, b) :: findMeasFrom fuel after
    | none => findMeasFrom fuel rest

/-- All measures (name, body) found by `BIValidator.check_measure_descriptions`
in one file content. -/
def findMeasures (s : Str) : List (Str × Str) := findMeasFrom s.length s

/-- Shared tail of the name captures
`["\']?([^"\'\n]+)` of the naming-convention regexes: optional opening
quote, then a non-empty run of characters other than quotes and newline. -/
def captureNameTail (r1 : Str) : Option Str :=
  if (r1.takeWhile isWS).isEmpty then none
  else
    let r2 := r1.dropWhile isWS
    let r3 := match r2 with
      | q :: rest => if q = quoteD || q = quoteS then rest else r2
      | [] => r2
    let name := r3.takeWhile (fun c => ¬ (c = quoteD || c = quoteS || c = '\n'))
    if name.isEmpty then none else some name

/-- Attempt of `table\s+["\']?([^"\'\n]+)["\']?` (case-sensitive) at the
current position, from `BIValidator.check_naming_convention`. -/
def matchTableAt (s : Str) : Option Str :=
  if litStarts (("table").toList) s then captureNameTail (s.drop 5) else none

/-- The first `table` name match in the content (`re.search`). -/
def searchTableName : Str → Option Str
  | [] => none
  | c :: rest =>
    match matchTableAt (c :: rest) with
    | some n => some n
    | none => searchTableName rest

/-- Split the content into lines at `\n` (for `re.MULTILINE` anchors). -/
def splitLines : Str → List Str
  | [] => [[]]
  | c :: rest =>
    if c = '\n' then [] :: splitLines rest
    else
      match splitLines rest with
      | l :: ls => (c :: l) :: ls
      | [] => [[c]]

/-- Attempt of `^\tcolumn\s+["\']?([^"\'\n]+)["\']?` on one line, from
`BIValidator.check_naming_convention`. -/
def matchColumnLine (line : Str) : Option Str :=
  match line with
  | '\t' :: r0 =>
    if litStarts (("column").toList) r0 then captureNameTail (r0.drop 6)
    else none
  | _ => none

/-- All column names flagged by the MULTILINE `finditer` over the content. -/
def columnNames (s : Str) : List Str :=
  (splitLines s).filterMap matchColumnLine

/-- Search for a literal followed by at least one digit
(the `Table\d+`, `Query\d+`, `Column\d+` sub-patterns). -/
def searchLitDigit (lit : Str) : Str → Bool
  | [] => false
  | c :: rest =>
    (litStarts lit (c :: rest) &&
      (match (c :: rest).drop lit.length with
       | d :: _ => d.isDigit
       | [] => false)) || searchLitDigit lit rest

/-- The bad-name test for tables:
`'_' in name or name[0].islower() or re.search(r'Table\d+|Query\d+', name)`. -/
def tableNameBad (name : Str) : Bool :=
  name.contains '_' ||
    (match name with
     | c :: _ => c.isLower
     | [] => false) ||
    searchLitDigit (("Table").toList) name || searchLitDigit (("Query").toList) name

/-- The bad-name test for columns:
`'_' in name or name[0].islower() or re.search(r'Column\d+', name)`. -/
def columnNameBad (name : Str) : Bool :=
  name.contains '_' ||
    (match name with
     | c :: _ => c.isLower
     | [] => false) ||
    searchLitDigit (("Column").toList) name

/-- Attempt of `table\s+["\']?Date["\']?\s*\x7b([^\x7d]*)\x7d` (IGNORECASE,
DOTALL) at the current position, from `BIValidator.check_date_table_mode`:
on success the captured brace content and the rest after the match. -/
def matchDateTableAt (s : Str) : Option (Str × Str) :=
  if ciStarts (("table").toList) s then
    let r1 := s.drop 5
    if (r1.takeWhile isWS).isEmpty then none
    else
      let r2 := r1.dropWhile isWS
      let r3 := match r2 with
        | q :: rest => if q = quoteD || q = quoteS then rest else r2
        | [] => r2
      if ciStarts (("Date").toList) r3 then
        let r4 := r3.drop 4
        let r5 := match r4 with
          | q :: rest => if q = quoteD || q = quoteS then rest else r4
          | [] => r4
        match r5.dropWhile isWS with
        | c :: r7 =>
          if c = braceL then
            let inner := r7.takeWhile (fun c2 => ¬ c2 = braceR)
            match r7.drop inner.length with
            | c2 :: r8 => if c2 = braceR then some (inner, r8) else none
            | [] => none
          else none
        | [] => none
      else none
  else none

/-- The `re.finditer` scan for Date-table brace blocks (fuel-driven). -/
def dateBlocksFrom : Nat → Str → List Str
  | 0, _ => []
  | _ + 1, [] => []
  | fuel + 1, c :: rest =>
    match matchDateTableAt (c :: rest) with
    | some (inner, after) => inner :: dateBlocksFrom fuel after
    | none => dateBlocksFrom fuel rest

/-- All Date-table brace contents found in one file content. -/
def dateTableBlocks (s : Str) : List Str := dateBlocksFrom s.length s

/-- Search for `autoDateTime\s*:\s*true` (IGNORECASE). -/
def searchAutoProp (s : Str) : Bool :=
  searchParts [("autoDateTime").toList, (":").toList, ("true").toList] s

/-- Search for `annotation\s*__PBI_TimeIntelligenceEnabled\s*=\s*1`
(IGNORECASE). -/
def searchAutoLegacy (s : Str) : Bool :=
  searchParts
    [("annotation").toList, ("__PBI_TimeIntelligenceEnabled").toList,
     ("=").toList, ("1").toList] s

/-- Search for `crossFilteringBehavior\s*:\s*both` (IGNORECASE). -/
def searchBidi (s : Str) : Bool :=
  searchParts [("crossFilteringBehavior").toList, (":").toList, ("both").toList] s

/-- Search for `cardinality\s*:\s*manyToMany` (IGNORECASE). -/
def searchM2M (s : Str) : Bool :=
  searchParts [("cardinality").toList, (":").toList, ("manyToMany").toList] s

/-- Search for `mode\s*:\s*import` (IGNORECASE). -/
def searchModeImport (s : Str) : Bool :=
  searchParts [("mode").toList, (":").toList, ("import").toList] s

/-- Search for `description\s*:` (IGNORECASE). -/
def searchDescProp (s : Str) : Bool :=
  searchParts [("description").toList, (":").toList] s

/-- Python substring containment `sub in s`. -/
def containsSub (sub : Str) : Str → Bool
  | [] => litStarts sub []
  | c :: rest => litStarts sub (c :: rest) || containsSub sub rest

/-- An entry of `BIValidator.errors` (message/impact/fix prose abstracted;
the stable `code` and `file` fields kept). -/
structure ErrorRec where
  code : String
  file : String
deriving DecidableEq, Repr

/-- An entry of `BIValidator.warnings` (`type`/`rule`/`file` fields kept;
prose abstracted; the measure names carried by the message of the
missing-description and unused-measures entries kept in `names`). -/
structure WarnRec where
  wtype : String
  rule : String
  file : String
  names : List Str
deriving DecidableEq, Repr

/-- An entry of `BIValidator.skipped_checks`: the bare check name recorded
by `is_check_allowed`, or the `<code> (inline: <reason>)` note recorded by
`has_skip_comment` (formatted reason text abstracted). -/
inductive SkipEntry where
  | overrideSkip (check : String)
  | inlineSkip (check : String)
deriving DecidableEq, Repr

/-- The `config['rules']['forbidden_logic']` flags read by
`validate_pbip`. -/
structure Config where
  auto_date_time : Bool
  bi_directional_filters : Bool
  many_to_many : Bool
deriving Repr

/-- The project-level overrides: check names whose `allow_<name>` flag is
set in `project_config.json`. -/
structure Overrides where
  allows : List String
deriving Repr

/-- The mutable validator state of `BIValidator` (per project). -/
structure VState where
  errors : List ErrorRec
  warnings : List WarnRec
  skipped : List SkipEntry
  allMeasures : List (Str × String)
  measureRefs : List Str
deriving Repr

/-- Fresh validator state (`BIValidator.__init__`). -/
def initState : VState := ⟨[], [], [], [], []⟩

/-- Append one error (`self.errors.append`). -/
def addErr (st : VState) (e : ErrorRec) : VState :=
  { st with errors := st.errors ++ [e] }

/-- Append one warning (`self.warnings.append`). -/
def addWarn (st : VState) (w : WarnRec) : VState :=
  { st with warnings := st.warnings ++ [w] }

/-- Append one skipped-check note (`self.skipped_checks.append`). -/
def addSkip (st : VState) (e : SkipEntry) : VState :=
  { st with skipped := st.skipped ++ [e] }

/-- Embedding of `BIValidator.is_check_allowed`: false (recording the skip) when the
project config sets `allow_<check_name>`. -/
def runCheckAllowed (ov : Overrides) (name : String) (st : VState) :
    Bool × VState :=
  if ov.allows.contains name then (false, addSkip st (.overrideSkip name))
  else (true, st)

/-- Embedding of `BIValidator.has_skip_comment` with its side effect on
`skipped_checks`. -/
def runHasSkip (content : Str) (code : String) (st : VState) : Bool × VState :=
  if has_skip_comment content code then (true, addSkip st (.inlineSkip code))
  else (false, st)

/-- Python dict assignment `d[k] = v`: overwrite in place, else append. -/
def dictInsert (k : Str) (v : String) : List (Str × String) → List (Str × String)
  | [] => [(k, v)]
  | (k2, v2) :: rest =>
    if k2 = k then (k, v) :: rest else (k2, v2) :: dictInsert k v rest

/-- Embedding of `BIValidator.check_auto_datetime`. -/
def check_auto_datetime (content : Str) (file : String) (st : VState) : VState :=
  let p := runHasSkip content "auto_date_time" st
  if p.1 then p.2
  else
    let st2 :=
      if searchAutoProp content then
        addErr p.2 ⟨"MODEL_AUTO_DATE_TIME_PROPERTY", file⟩
      else p.2
    if searchAutoLegacy content then
      addErr st2 ⟨"MODEL_AUTO_DATE_TIME_LEGACY", file⟩
    else st2

/-- Embedding of `BIValidator.check_bidirectional_filter`. -/
def check_bidirectional_filter (ov : Overrides) (content : Str) (file : String)
    (st : VState) : VState :=
  let p := runCheckAllowed ov "bi_directional_filters" st
  if ¬ p.1 then p.2
  else
    let p2 := runHasSkip content "bi_di_filter" p.2
    if p2.1 then p2.2
    else if searchBidi content then addErr p2.2 ⟨"MODEL_BI_DI_FILTER", file⟩
    else p2.2

/-- Embedding of `BIValidator.check_many_to_many`. -/
def check_many_to_many (ov : Overrides) (content : Str) (file : String)
    (st : VState) : VState :=
  let p := runCheckAllowed ov "many_to_many" st
  if ¬ p.1 then p.2
  else if searchM2M content then addErr p.2 ⟨"MODEL_MANY_TO_MANY", file⟩
  else p.2

/-- The column warnings emitted by the second half of
`BIValidator.check_naming_convention`. -/
def namingColumnWarns (content : Str) (file : String) : List WarnRec :=
  (columnNames content).filterMap
    (fun n =>
      if columnNameBad n then
        some ⟨"Naming", "Title Case / Meaningful Names", file, [n]⟩
      else none)

/-- The system-table test of `check_naming_convention`:
`name.startswith('LocalDateTable') or name.startswith('DateTableTemplate')`. -/
def isSystemTableName (name : Str) : Bool :=
  litStarts (("LocalDateTable").toList) name ||
    litStarts (("DateTableTemplate").toList) name

/-- Embedding of `BIValidator.check_naming_convention` (note the early `return` when the
first table name is a system table, which also skips the column checks). -/
def check_naming_convention (ov : Overrides) (content : Str) (file : String)
    (st : VState) : VState :=
  let p := runCheckAllowed ov "naming_convention" st
  if ¬ p.1 then p.2
  else
    match searchTableName content with
    | some name =>
      if isSystemTableName name then p.2
      else
        let st2 :=
          if tableNameBad name then
            addWarn p.2 ⟨"Naming", "Title Case / Meaningful Names", file, [name]⟩
          else p.2
        { st2 with warnings := st2.warnings ++ namingColumnWarns content file }
    | none =>
      { p.2 with warnings := p.2.warnings ++ namingColumnWarns content file }

/-- Embedding of `BIValidator.check_date_table_mode`. -/
def check_date_table_mode (content : Str) (file : String) (st : VState) :
    VState :=
  { st with
    errors := st.errors ++
      (dateTableBlocks content).filterMap
        (fun inner =>
          if searchModeImport inner then none
          else some ⟨"MODEL_DATE_TABLE_MODE", file⟩) }

/-- The body of the measure loop in `BIValidator.check_measure_descriptions`:
one missing-description warning when the captured body has no description
property, then the `all_measures` inventory update. -/
def cmdStep (file : String) (st2 : VState) (m : Str × Str) : VState :=
  let st3 :=
    if searchDescProp m.2 then st2
    else addWarn st2 ⟨"Documentation", "Missing description", file, [m.1]⟩
  { st3 with allMeasures := dictInsert m.1 file st3.allMeasures }

/-- Embedding of `BIValidator.check_measure_descriptions`: missing-description warnings
plus the `all_measures` inventory update. -/
def check_measure_descriptions (content : Str) (file : String) (st : VState) :
    VState :=
  (findMeasures content).foldl (cmdStep file) st

/-- Embedding of `BIValidator.collect_references`. -/
def collect_references (content : Str) (st : VState) : VState :=
  { st with measureRefs := st.measureRefs ++ extractRefs content }

/-- The `unused` list computed by `BIValidator.check_unused_measures`:
inventoried measures with a zero reference count. -/
def unusedList (allM : List (Str × String)) (refs : List Str) : List Str :=
  (allM.map Prod.fst).filter (fun n => refs.count n = 0)

/-- Embedding of `BIValidator.check_unused_measures`. -/
def check_unused_measures (ov : Overrides) (st : VState) : VState :=
  let p := runCheckAllowed ov "unused_measures" st
  if ¬ p.1 then p.2
  else
    let unused := unusedList p.2.allMeasures p.2.measureRefs
    if unused.isEmpty then p.2
    else addWarn p.2 ⟨"Efficiency", "Unused Measures", "Multiple Files", unused⟩

/-- One TMDL file: name plus content; `none` models a file whose read
raises (`parse_tmdl_file` failure). -/
structure TmdlFile where
  name : String
  content : Option Str
deriving DecidableEq

/-- One visual file: content for reference collection, plus the color
property keys found in its JSON (the recursive dictionary walk of
`find_color_props` abstracted as input data, JSON parsing being outside the
modelled core). -/
structure VisualFile where
  name : String
  content : Option Str
  colorProps : List String
deriving DecidableEq

/-- Identifier of one rule invocation of the evaluator. -/
inductive CheckId where
  | autoDateTime
  | bidirectionalFilter
  | manyToMany
  | namingConvention
  | dateTableMode
  | measureDescriptions
  | unusedMeasures
deriving DecidableEq, Repr

/-- Run one rule on the validator state, with the config/override gating
exactly as in `validate_pbip`; the content-based rules read the file
content, the unused-measures rule reads the inventory and reference state
collected earlier. -/
def applyCheck (cfg : Config) (ov : Overrides) (content : Str) (file : String) :
    CheckId → VState → VState
  | .autoDateTime, st =>
    if cfg.auto_date_time then
      let p := runCheckAllowed ov "auto_date_time" st
      if p.1 then check_auto_datetime content file p.2 else p.2
    else st
  | .bidirectionalFilter, st =>
    if cfg.bi_directional_filters then
      let p := runCheckAllowed ov "bi_directional_filters" st
      if p.1 then check_bidirectional_filter ov content file p.2 else p.2
    else st
  | .manyToMany, st =>
    if cfg.many_to_many then check_many_to_many ov content file st else st
  | .namingConvention, st => check_naming_convention ov content file st
  | .dateTableMode, st => check_date_table_mode content file st
  | .measureDescriptions, st => check_measure_descriptions content file st
  | .unusedMeasures, st => check_unused_measures ov st

/-- Run a sequence of rules in the given order over the same content. -/
def runChecksSeq (cfg : Config) (ov : Overrides) (content : Str) (file : String)
    (order : List CheckId) (st : VState) : VState :=
  order.foldl (fun s c => applyCheck cfg ov content file c s) st

/-- The order in which the rules loop of `validate_pbip` runs the
content-based checks on each file. -/
def fileCheckOrder : List CheckId :=
  [.autoDateTime, .bidirectionalFilter, .manyToMany, .namingConvention,
   .dateTableMode, .measureDescriptions]

/-- The per-file body of the rules loop in `BIValidator.validate_pbip`:
config gating, override gating and the checks in source order; a file whose
read raises is caught and recorded as one Parser warning (the remaining
checks for that file are skipped, later files continue). -/
def runFileChecks (cfg : Config) (ov : Overrides) (f : TmdlFile) (st : VState) :
    VState :=
  match f.content with
  | none => addWarn st ⟨"Parser", "File Readable", f.name, []⟩
  | some content => runChecksSeq cfg ov content f.name fileCheckOrder st

/-- The reference-collection pass (step 1.5 of `validate_pbip`); unreadable
files are silently skipped (`except: pass`). -/
def collectAllRefs (files : List TmdlFile) (visuals : List VisualFile)
    (st : VState) : VState :=
  let st1 := files.foldl
    (fun s f =>
      match f.content with
      | some c => collect_references c s
      | none => s)
    st
  visuals.foldl
    (fun s v =>
      match v.content with
      | some c => collect_references c s
      | none => s)
    st1

/-- Embedding of `BIValidator.check_hardcoded_colors` (per visual: unreadable visuals
are skipped, a non-empty color-property list yields one error). -/
def check_hardcoded_colors (visuals : List VisualFile) (st : VState) : VState :=
  visuals.foldl
    (fun s v =>
      match v.content with
      | none => s
      | some _ =>
        if v.colorProps.isEmpty then s
        else addErr s ⟨"VISUAL_HARDCODED_COLOR", v.name⟩)
    st

/-- The score computation at the end of `validate_pbip`:
start at 100, subtract 10 per error and 2 per warning, clamp below at 0. -/
def computeScore (numErrors numWarnings : Nat) : Int :=
  max 0 (100 - 10 * (numErrors : Int) - 2 * (numWarnings : Int))

/-- The observable outcome of one `validate_pbip` run. -/
structure VResult where
  errors : List ErrorRec
  warnings : List WarnRec
  skipped : List SkipEntry
  score : Int
deriving Repr

/-- Embedding of `BIValidator.validate_pbip` on a fresh validator: hidden
date-table detection, early return when nothing was found, reference
collection, the per-file rules loop, hardcoded-color check, unused-measure
check, and scoring. -/
def validate_pbip (cfg : Config) (ov : Overrides) (files : List TmdlFile)
    (visuals : List VisualFile) : VResult :=
  let hidden := files.filter
    (fun f =>
      containsSub (("LocalDateTable").toList) f.name.toList ||
        containsSub (("DateTableTemplate").toList) f.name.toList)
  let st1 :=
    if 0 < hidden.length then
      let p := runCheckAllowed ov "auto_date_time" initState
      if p.1 then addErr p.2 ⟨"MODEL_AUTO_DATE_TIME_HIDDEN_TABLES", "Multiple Files"⟩
      else p.2
    else initState
  if files.isEmpty && visuals.isEmpty then
    ⟨st1.errors, st1.warnings, st1.skipped, 100⟩
  else
    let st2 := collectAllRefs files visuals st1
    let st3 := files.foldl (fun s f => runFileChecks cfg ov f s) st2
    let st4 := if visuals.isEmpty then st3 else check_hardcoded_colors visuals st3
    let st5 := check_unused_measures ov st4
    ⟨st5.errors, st5.warnings, st5.skipped,
      computeScore st5.errors.length st5.warnings.length⟩

/-- The `status_label` written by `BIValidator.log_to_csv`:
`'PASS' if self.score >= 70 else 'FAIL'`. -/
def statusLabelOf (score : Int) : String := if 70 ≤ score then "PASS" else "FAIL"

/-- The process exit code computed by `main`:
`0 if validator.score >= 70 else 1`. -/
def mainExitCode (score : Int) : Nat := if 70 ≤ score then 0 else 1

/-- One project of a batch run, with its own per-project overrides
(`load_project_config` reads them from the project folder). -/
structure Project where
  ov : Overrides
  files : List TmdlFile
  visuals : List VisualFile

/-- A batch run: every project is validated by a fresh `BIValidator`
instance (`main` constructs one per invocation). -/
def runProjects (cfg : Config) (ps : List Project) : List VResult :=
  ps.map (fun p => validate_pbip cfg p.ov p.files p.visuals)

/-- Python `str.strip()` (ASCII whitespace). -/
def strip (s : Str) : Str :=
  ((s.dropWhile isWS).reverse.dropWhile isWS).reverse

/-- Remove the first occurrence of a substring (`str.replace(sub, '', 1)`). -/
def removeFirstSub (sub : Str) : Str → Str
  | [] => []
  | c :: rest =>
    if litStarts sub (c :: rest) then (c :: rest).drop sub.length
    else c :: removeFirstSub sub rest

/-- The text before the first occurrence of a substring
(`str.split(sub)[0]`; the whole text when the substring is absent). -/
def beforeSub (sub : Str) : Str → Str
  | [] => []
  | c :: rest =>
    if litStarts sub (c :: rest) then [] else c :: beforeSub sub rest

/-- The text after the first occurrence of a substring
(`str.split(sub, 1)[1]`). -/
def afterSub (sub : Str) : Str → Str
  | [] => []
  | c :: rest =>
    if litStarts sub (c :: rest) then (c :: rest).drop sub.length
    else afterSub sub rest

/-- The triple-backtick fence marker of `generate_measure_docs.py`. -/
def ticks : Str := ("```").toList

/-- The name class `[^\'"=]+` of the measure-line regex in
`generate_measure_docs.generate_docs`. -/
def gdNameClass (c : Char) : Bool := ¬ (c = quoteS || c = quoteD || c = '=')

/-- The tail `\s*=\s*(.*)` of the measure-line regex: optional whitespace,
`=`, optional whitespace, then the rest of the line as group 2. -/
def gdEqAfter (s : Str) : Option Str :=
  match s.dropWhile isWS with
  | c :: r => if c = '=' then some (r.dropWhile isWS) else none
  | [] => none

/-- The optional closing quote `[\'"]?` before `\s*=`: the engine prefers
consuming a quote and falls back to the empty alternative. -/
def gdQuote2 (s : Str) : Option Str :=
  match s with
  | q :: r =>
    if q = quoteS || q = quoteD then
      match gdEqAfter r with
      | some r2 => some r2
      | none => gdEqAfter s
    else gdEqAfter s
  | [] => gdEqAfter s

/-- Backtracking over the greedy name capture `([^\'"=]+)`: the engine
shortens the capture from the right until the tail matches; the first
argument is the reversed candidate name. -/
def gdShrinkRev : Str → Str → Option (Str × Str)
  | [], _ => none
  | c :: revRest, rest =>
    match gdQuote2 rest with
    | some r2 => some ((c :: revRest).reverse, r2)
    | none => gdShrinkRev revRest (c :: rest)

/-- The optional opening quote `[\'"]?`: prefer consuming a quote, fall
back to the empty alternative. -/
def gdAfterQuote1 (r : Str) : Option (Str × Str) :=
  let noQ :=
    let nm := r.takeWhile gdNameClass
    gdShrinkRev nm.reverse (r.drop nm.length)
  match r with
  | q :: r2 =>
    if q = quoteS || q = quoteD then
      let nm := r2.takeWhile gdNameClass
      match gdShrinkRev nm.reverse (r2.drop nm.length) with
      | some res => some res
      | none => noQ
    else noQ
  | [] => noQ

/-- Backtracking over the greedy `\s+` after the `measure` keyword (name
characters include whitespace, so the engine may hand whitespace back). -/
def gdWsBacktrack : Nat → Str → Option (Str × Str)
  | 0, _ => none
  | k + 1, r1 =>
    match gdAfterQuote1 (r1.drop (k + 1)) with
    | some res => some res
    | none => gdWsBacktrack k r1

/-- Embedding of the measure-line regex
`^\s*measure\s+[\'"]?([^\'"=]+)[\'"]?\s*=\s*(.*)` of
`generate_measure_docs.generate_docs`; on success the stripped captured
name and the stripped rest of the line, as the source computes them. -/
def matchGDMeasureLine (line : Str) : Option (Str × Str) :=
  let body := line.dropWhile isWS
  if litStarts (("measure").toList) body then
    let r1 := body.drop 7
    let w := r1.takeWhile isWS
    if w.isEmpty then none
    else (gdWsBacktrack w.length r1).map (fun p => (strip p.1, strip p.2))
  else none

/-- One parsed measure of `generate_measure_docs.generate_docs` (model and
table names are path-derived and kept outside the parsing core). -/
structure GDMeasure where
  name : Str
  dax : Str
  descr : Str
deriving DecidableEq, Repr

/-- The default description text assigned by `generate_docs`. -/
def noDescrText : Str := ("No description provided").toList

/-- The loop state of `generate_docs`: collected measures, the measure
under construction, and the `in_expression_block` flag. -/
structure GDState where
  out : List GDMeasure
  current : Option GDMeasure
  inExpr : Bool
deriving DecidableEq, Repr

/-- One iteration of the line loop of `generate_measure_docs.generate_docs`
(lines carry no trailing newline, which no branch observes). -/
def gdStep (st : GDState) (line : Str) : GDState :=
  let stripped := strip line
  if stripped.isEmpty then st
  else
    match matchGDMeasureLine line with
    | some (name, restOfLine) =>
      let out1 :=
        match st.current with
        | some m => st.out ++ [m]
        | none => st.out
      if litStarts ticks restOfLine then
        let contentAfter := strip (removeFirstSub ticks restOfLine)
        let dax0 := if contentAfter.isEmpty then [] else contentAfter ++ ['\n']
        { out := out1, current := some ⟨name, dax0, noDescrText⟩, inExpr := true }
      else
        { out := out1, current := some ⟨name, restOfLine, noDescrText⟩,
          inExpr := st.inExpr }
    | none =>
      match st.current with
      | some m =>
        if st.inExpr then
          if containsSub ticks line then
            let contentBefore := strip (beforeSub ticks line)
            let m2 :=
              if contentBefore.isEmpty then m
              else { m with dax := m.dax ++ contentBefore }
            { st with current := some m2, inExpr := false }
          else
            { st with current := some { m with dax := m.dax ++ strip line ++ [' '] } }
        else
          let fw := stripped.takeWhile (fun c => ¬ isWS c)
          if fw = ("column").toList || fw = ("partition").toList ||
              fw = ("hierarchy").toList then
            { st with out := st.out ++ [m], current := none }
          else if litStarts (("description:").toList) stripped then
            let descPart := strip (afterSub (("description:").toList) line)
            let descClean :=
              match descPart with
              | c :: _ =>
                if c = quoteD ∧ descPart.getLast? = some quoteD ∧ 2 ≤ descPart.length
                then (descPart.drop 1).dropLast
                else descPart
              | [] => descPart
            { st with current := some { m with descr := descClean } }
          else st
      | none => st

/-- The full line loop of `generate_docs` on one file, including the final
flush of the measure under construction. -/
def gdRun (lines : List Str) : List GDMeasure :=
  let fin := lines.foldl gdStep ⟨[], none, false⟩
  match fin.current with
  | some m => fin.out ++ [m]
  | none => fin.out

/-- A table record of `bi_doc_generator.DocBuilder` (fields used by the
type derivation; `type` defaults to `Dimension` in `parse_table_tmdl`). -/
structure DTable where
  name : String
  ttype : String
deriving DecidableEq, Repr

/-- A relationship record of `DocBuilder.parse_relationships` (the fields
consumed by the type derivation). -/
structure DRel where
  fromFull : String
  toFull : String
  fromTable : String
deriving DecidableEq, Repr

/-- The many-side table extraction of `DocBuilder.parse_relationships`:
split `Table[Column]` at `[`, else `Table.Column` at `.`, else keep the
text as is. -/
def fromTableOf (fromFull : Str) : Str :=
  if fromFull.contains '[' then strip (fromFull.takeWhile (fun c => ¬ c = '['))
  else if fromFull.contains '.' then strip (fromFull.takeWhile (fun c => ¬ c = '.'))
  else fromFull

/-- Build a relationship record the way `parse_relationships` does. -/
def mkDRel (fromFull toFull : String) : DRel :=
  ⟨fromFull, toFull, String.mk (fromTableOf fromFull.toList)⟩

/-- Embedding of `DocBuilder.identify_table_types`: every table appearing as the
`fromTable` (many side) of at least one relationship becomes `Fact`, every
other table becomes `Dimension`. -/
def identify_table_types (rels : List DRel) (tables : List DTable) :
    List DTable :=
  let manySide := rels.map (fun r => r.fromTable)
  tables.map
    (fun t =>
      if manySide.contains t.name then { t with ttype := "Fact" }
      else { t with ttype := "Dimension" })

/-- The configuration with every forbidden-logic rule enabled. -/
def cfgAllRules : Config := ⟨true, true, true⟩

/-- No project-level overrides. -/
def noOverrides : Overrides := ⟨[]⟩

/-- The relationship file of the spec scenario: one bidirectional filter. -/
def scenarioRelFile : TmdlFile :=
  ⟨"relationships.tmdl", some (("crossFilteringBehavior: both").toList)⟩

/-- The table file of the spec scenario: three measures, none carrying a
description property. -/
def scenarioMeasFile : TmdlFile :=
  ⟨"Sales.tmdl", some (("measure A = 1\nmeasure B = 2\nmeasure C = 3\n").toList)⟩

/-- The visual of the spec scenario: reference text naming all three
measures (so none is reported unused) and no hardcoded colors. -/
def scenarioVisual : VisualFile :=
  ⟨"visual.json", some (("[A] [B] [C]").toList), []⟩

/-- The spec scenario run without project overrides. -/
def scenarioRun : VResult :=
  validate_pbip cfgAllRules noOverrides [scenarioRelFile, scenarioMeasFile]
    [scenarioVisual]

/-- The spec scenario run with `allow_bi_directional_filters: true`. -/
def scenarioRunAllowed : VResult :=
  validate_pbip cfgAllRules ⟨["bi_directional_filters"]⟩
    [scenarioRelFile, scenarioMeasFile] [scenarioVisual]

/-- Modelled from the spec: the spec requires a malformed region to appear
in the output as a `Block` with keyword `malformed`; the implementation has
no block stream, its only typed outputs being the diagnostic records, so
this checks every record of a run for the `malformed` marker. -/
def specMalformedBlockEmitted (r : VResult) : Bool :=
  r.errors.any (fun e => e.code = "malformed") ||
    r.warnings.any (fun w => w.wtype = "malformed" || w.rule = "malformed")

/-- The number of positions at which `pat` occurs as a plain substring. -/
def subOccCount (pat : Str) : Str → Nat
  | [] => 0
  | c :: rest =>
    (if litStarts pat (c :: rest) then 1 else 0) + subOccCount pat rest

/-- The errors one rule contributes on one content: its output on the
fresh validator state (the content-based rules append the same list to any
state). -/
def checkErrs (cfg : Config) (ov : Overrides) (content : Str) (file : String)
    (c : CheckId) : List ErrorRec :=
  (applyCheck cfg ov content file c initState).errors

/-- The warnings one rule contributes on one content. -/
def checkWarns (cfg : Config) (ov : Overrides) (content : Str) (file : String)
    (c : CheckId) : List WarnRec :=
  (applyCheck cfg ov content file c initState).warnings

/-- The missing-description warnings of one file, as a pure list. -/
def mdWarns (content : Str) (file : String) : List WarnRec :=
  (findMeasures content).filterMap
    (fun m =>
      if searchDescProp m.2 then none
      else some ⟨"Documentation", "Missing description", file, [m.1]⟩)

/-- The warnings one file contributes to the rules loop. -/
def fileWarns (cfg : Config) (ov : Overrides) (f : TmdlFile) : List WarnRec :=
  (runFileChecks cfg ov f initState).warnings

/-- A file whose measure block is truncated by end of file (no closing
boundary line follows the expression). -/
def truncatedFile : TmdlFile := ⟨"Trunc.tmdl", some (("measure M = 1").toList)⟩

/-- A second, well-formed table file. -/
def otherFile : TmdlFile := ⟨"Other.tmdl", some (("measure K = 2\n").toList)⟩

/-- A run containing the truncated file and a healthy file. -/
def c6Run : VResult :=
  validate_pbip cfgAllRules noOverrides [truncatedFile, otherFile] []

/-- A project whose only file cannot be read. -/
def unreadableRun : VResult :=
  validate_pbip cfgAllRules noOverrides [⟨"model.tmdl", none⟩] []

/-- The content for the rule-order experiment: one measure, never
referenced. -/
def c9Content : Str := ("measure M = 1").toList

/-- The state after reference collection on that content (as the pipeline
produces before running rules). -/
def c9Init : VState := collect_references c9Content initState

/-- An interior expression line of a fenced measure block: non-blank, no
fence marker, not a measure header. -/
def gdPlainLine (l : Str) : Prop :=
  strip l ≠ [] ∧ matchGDMeasureLine l = none ∧ containsSub ticks l = false

/-- The fenced multi-line measure input of the capture claims. -/
def gdFenceLines : List Str :=
  [("measure M = ```").toList, ("RET + 1").toList, ("    RET + 2").toList,
   ("```").toList]

/-- The Sales→Date relationship of the spec scenario, as
`parse_relationships` builds it from `fromColumn: Sales.DateKey`. -/
def relSalesDate : DRel := mkDRel "Sales.DateKey" "Date.DateKey"

theorem extractRefsAux_capture (n : Str) :
    ∀ (revAcc content : Str), ']' ∉ n →
      extractRefsAux (some revAcc) (n ++ ']' :: content) =
        (if (n.reverse ++ revAcc).isEmpty then extractRefsAux none content
         else (n.reverse ++ revAcc).reverse :: extractRefsAux none content) := by
  induction n with
  | nil => intro revAcc content _; simp [extractRefsAux]
  | cons c rest ih =>
    intro revAcc content hn
    have hc : ¬ c = ']' := fun hcc => hn (by simp [hcc])
    have hrest : ']' ∉ rest := fun hm => hn (by simp [hm])
    have hstep : extractRefsAux (some revAcc) ((c :: rest) ++ ']' :: content) =
        extractRefsAux (some (c :: revAcc)) (rest ++ ']' :: content) := by
      simp [extractRefsAux, hc]
    rw [hstep, ih (c :: revAcc) content hrest]
    simp [List.append_assoc]

theorem extractRefs_bracket_cons (n content : Str) (h1 : n ≠ [])
    (h2 : ']' ∉ n) :
    extractRefs ('[' :: (n ++ ']' :: content)) = n :: extractRefs content := by
  unfold extractRefs
  simp only [extractRefsAux, if_pos rfl]
  have hne : ¬ ((n.reverse ++ ([] : Str)).isEmpty = true) := by
    simp only [List.append_nil, List.isEmpty_iff, List.reverse_eq_nil_iff]
    exact h1
  rw [extractRefsAux_capture n [] content h2, if_neg hne]
  simp

/-- Claim C1: the score of a run equals 100 minus 10 per error diagnostic
and minus 2 per warning diagnostic (diagnostics suppressed by overrides are
never emitted, hence never counted), clamped below at 0; consequently the
score of every run lies in [0,100]; and the scenario with one
bidirectional-filter error and three missing-description warnings scores
84. -/
theorem C1_score_formula_range_scenario :
    (∀ cfg ov files visuals,
      (validate_pbip cfg ov files visuals).score =
        computeScore (validate_pbip cfg ov files visuals).errors.length
          (validate_pbip cfg ov files visuals).warnings.length) ∧
    (∀ e w : Nat, 0 ≤ computeScore e w ∧ computeScore e w ≤ 100) ∧
    (scenarioRun.errors.length = 1 ∧ scenarioRun.warnings.length = 3 ∧
      scenarioRun.score = 84) := by
  refine ⟨?_, ?_, by decide⟩
  · intro cfg ov files visuals
    by_cases he : (files.isEmpty && visuals.isEmpty) = true
    · have hf : files = [] := by
        cases files with
        | nil => rfl
        | cons a l => simp at he
      subst hf
      simp only [List.isEmpty_nil, Bool.true_and] at he
      simp [validate_pbip, he, initState, computeScore]
    · simp only [Bool.not_eq_true] at he
      simp [validate_pbip, he]
  · intro e w
    refine ⟨le_max_left _ _, ?_⟩
    apply max_le <;> omega

/-- Claim C10: the audit record's status is `PASS` and the process exit
code is 0 exactly when the score is at least 70; otherwise the status is
`FAIL` and the exit code is 1. -/
theorem C10_status_and_exit_threshold :
    ∀ s : Int,
      (statusLabelOf s = "PASS" ∧ mainExitCode s = 0 ↔ 70 ≤ s) ∧
      (statusLabelOf s = "FAIL" ∧ mainExitCode s = 1 ↔ ¬ 70 ≤ s) := by
  intro s
  by_cases h : (70 : Int) ≤ s <;>
    simp [statusLabelOf, mainExitCode, h]

/-- Claim C2 counterexample: with `allow_bi_directional_filters: true` on
the scenario model the score is 94, but the bidirectional diagnostic is not
retained in the output — the errors list is empty and in particular
contains no `MODEL_BI_DI_FILTER` record, refuting the claim that the
diagnostic is present with `suppressed=true`. -/
theorem C2_suppressed_diagnostic_not_retained :
    scenarioRunAllowed.score = 94 ∧
      (scenarioRunAllowed.errors.filter
        (fun e => e.code == "MODEL_BI_DI_FILTER")).length = 0 ∧
      scenarioRunAllowed.errors.length = 0 := by decide

/-- Claim C2 amended: the project-level allow suppresses a rule by not
running it at all — no diagnostic is created, the check name is recorded in
`skipped_checks`, and on the scenario model the score is 94 with the three
missing-description warnings intact. -/
theorem C2_amended_override_skips_check :
    scenarioRunAllowed.score = 94 ∧ scenarioRunAllowed.errors = [] ∧
      scenarioRunAllowed.warnings.length = 3 ∧
      SkipEntry.overrideSkip "bi_directional_filters" ∈
        scenarioRunAllowed.skipped := by decide

/-- Claim C7 counterexample: a table with zero relationships (here
`Lonely`, while `Sales`→`Date` is the only relationship) is classified
`Dimension`, not `Unknown` — no `Unknown` classification exists in the
code. -/
theorem C7_zero_relationship_table_not_unknown :
    identify_table_types [relSalesDate]
        [⟨"Sales", "Dimension"⟩, ⟨"Date", "Dimension"⟩,
         ⟨"Lonely", "Dimension"⟩] =
      [⟨"Sales", "Fact"⟩, ⟨"Date", "Dimension"⟩, ⟨"Lonely", "Dimension"⟩] ∧
    ("Dimension" : String) ≠ "Unknown" := by decide

/-- Claim C7 amended: every table appearing as the `fromTable` (many side)
of at least one relationship is classified `Fact` and every other table —
including tables with zero relationships — is classified `Dimension`; no
table is ever classified `Unknown`; and `Relationship{from: Sales, to:
Date}` makes `Sales` a `Fact` and `Date` a `Dimension`. -/
theorem C7_amended_many_side_fact_others_dimension :
    (∀ (rels : List DRel) (tables : List DTable) (t : DTable), t ∈ tables →
      (if (rels.map (fun r => r.fromTable)).contains t.name then
          ({ t with ttype := "Fact" } : DTable)
        else { t with ttype := "Dimension" }) ∈ identify_table_types rels tables) ∧
    (∀ (rels : List DRel) (tables : List DTable) (u : DTable),
      u ∈ identify_table_types rels tables →
      u.ttype = "Fact" ∨ u.ttype = "Dimension") ∧
    identify_table_types [relSalesDate]
        [⟨"Sales", "Dimension"⟩, ⟨"Date", "Dimension"⟩] =
      [⟨"Sales", "Fact"⟩, ⟨"Date", "Dimension"⟩] := by
  refine ⟨?_, ?_, by decide⟩
  · intro rels tables t ht
    simp only [identify_table_types]
    exact List.mem_map_of_mem _ ht
  · intro rels tables u hu
    simp only [identify_table_types, List.mem_map] at hu
    obtain ⟨t, _, rfl⟩ := hu
    cases hcc : (rels.map (fun r => r.fromTable)).contains t.name <;>
      simp only [hcc, Bool.false_eq_true, if_false, if_true] <;> simp

/-- Witness for the amended C7 theorem at the Sales→Date scenario. -/
theorem C7_amended_many_side_fact_others_dimension_witness :
    (⟨"Sales", "Fact"⟩ : DTable) ∈
      identify_table_types [relSalesDate]
        [⟨"Sales", "Dimension"⟩, ⟨"Date", "Dimension"⟩] := by
  have h := C7_amended_many_side_fact_others_dimension.1 [relSalesDate]
    [⟨"Sales", "Dimension"⟩, ⟨"Date", "Dimension"⟩] ⟨"Sales", "Dimension"⟩
    (by decide)
  revert h
  decide

/-- Claim C4 counterexample: in the scanned text `[[M]` the bracketed name
`[M]` occurs once as a substring, yet the scan captures only `[M` (the
regex stops at the first `]` after a non-empty run), the reference count of
`M` stays 0, and the measure `M` is still flagged unused — so "flagged iff
`[Name]` occurs zero times" fails, as does "adding a single occurrence
anywhere removes the flag". -/
theorem C4_substring_occurrence_mismatch :
    subOccCount (("[M]").toList) (("[[M]").toList) = 1 ∧
      unusedList [(("M").toList, "f.tmdl")] (extractRefs (("[[M]").toList)) =
        [("M").toList] := by decide

/-- Claim C4 amended: a measure is flagged unused exactly when it is in the
inventory and the bracket scan captured its name zero times; and an added
occurrence of `[Name]` that forms its own capture (for instance prepended
to the scanned text) removes the flag. -/
theorem C4_amended_unused_iff_zero_scanned_refs :
    (∀ (allM : List (Str × String)) (refs : List Str) (n : Str),
      n ∈ unusedList allM refs ↔ n ∈ allM.map Prod.fst ∧ refs.count n = 0) ∧
    (∀ (n content : Str) (allM : List (Str × String)), n ≠ [] → ']' ∉ n →
      n ∉ unusedList allM (extractRefs ('[' :: (n ++ ']' :: content)))) := by
  constructor
  · intro allM refs n
    simp [unusedList, List.mem_filter]
  · intro n content allM h1 h2
    rw [extractRefs_bracket_cons n content h1 h2]
    intro hmem
    simp [unusedList, List.mem_filter, List.count_cons] at hmem

/-- Witness for the amended C4 theorem: `TotalSales` is flagged on an empty
reference list but not once `[TotalSales]` is prepended to the text. -/
theorem C4_amended_unused_iff_zero_scanned_refs_witness :
    ((("TotalSales").toList ∈
        unusedList [(("TotalSales").toList, "t.tmdl")] (extractRefs []) ↔
      ("TotalSales").toList ∈
          ([(("TotalSales").toList, "t.tmdl")].map Prod.fst) ∧
        (extractRefs []).count (("TotalSales").toList) = 0) ∧
      ("TotalSales").toList ∉
        unusedList [(("TotalSales").toList, "t.tmdl")]
          (extractRefs ('[' :: ((("TotalSales").toList) ++ ']' :: [])))) :=
  ⟨C4_amended_unused_iff_zero_scanned_refs.1 _ _ _,
   C4_amended_unused_iff_zero_scanned_refs.2 (("TotalSales").toList) [] _
     (by decide) (by decide)⟩

/-- Claim C5 counterexample: the stored expression of a fenced multi-line
measure is the interior lines stripped and joined with single spaces (with
a trailing space), not the verbatim source text — line breaks and
indentation are removed. -/
theorem C5_multiline_not_verbatim :
    gdRun gdFenceLines =
      [⟨("M").toList, ("RET + 1 RET + 2 ").toList, noDescrText⟩] ∧
    ¬ (("RET + 1 RET + 2 ").toList : Str) = ("RET + 1\n    RET + 2").toList := by
  decide

theorem gdStep_plain (out : List GDMeasure) (m : GDMeasure) (l : Str)
    (hl : gdPlainLine l) :
    gdStep ⟨out, some m, true⟩ l =
      ⟨out, some { m with dax := m.dax ++ (strip l ++ [' ']) }, true⟩ := by
  obtain ⟨h1, h2, h3⟩ := hl
  unfold gdStep
  simp [h2, h3, List.isEmpty_iff, h1, List.append_assoc]

theorem gd_fold_plain (ls : List Str) :
    ∀ (out : List GDMeasure) (m : GDMeasure), (∀ l ∈ ls, gdPlainLine l) →
      ls.foldl gdStep ⟨out, some m, true⟩ =
        ⟨out,
          some { m with
            dax := m.dax ++ (ls.map (fun l => strip l ++ [' '])).flatten },
          true⟩ := by
  induction ls with
  | nil => intro out m _; simp
  | cons l rest ih =>
    intro out m h
    have hl := h l (by simp)
    have hrest : ∀ x ∈ rest, gdPlainLine x := fun x hx => h x (by simp [hx])
    simp only [List.foldl_cons]
    rw [gdStep_plain out m l hl, ih out _ hrest]
    simp [List.append_assoc]

/-- Claim C5 amended: multi-line expression bodies are delimited by
triple-backtick fences, not by a reserved-keyword lookahead; the stored
expression is each interior line stripped of its surrounding whitespace and
followed by a single space, concatenated — the line breaks and indentation
of the DAX text are not preserved. -/
theorem C5_amended_fenced_lines_stripped_joined (ls : List Str)
    (h : ∀ l ∈ ls, gdPlainLine l) :
    gdRun ((("measure M = ```").toList) :: (ls ++ [("```").toList])) =
      [⟨("M").toList, (ls.map (fun l => strip l ++ [' '])).flatten,
        noDescrText⟩] := by
  unfold gdRun
  simp only [List.foldl_cons]
  have h0 : gdStep ⟨[], none, false⟩ (("measure M = ```").toList) =
      ⟨[], some ⟨("M").toList, [], noDescrText⟩, true⟩ := by decide
  rw [h0, List.foldl_append, gd_fold_plain ls _ _ h]
  have hcl : ∀ (out : List GDMeasure) (m : GDMeasure),
      gdStep ⟨out, some m, true⟩ (("```").toList) = ⟨out, some m, false⟩ := by
    intro out m
    rfl
  simp only [List.foldl_cons, List.foldl_nil, hcl]
  simp

/-- Witness for the amended C5 theorem on a concrete two-line body. -/
theorem C5_amended_fenced_lines_stripped_joined_witness :
    gdRun ((("measure M = ```").toList) ::
        ([("VAL + 1").toList, ("  VAL + 2").toList] ++ [("```").toList])) =
      [⟨("M").toList,
        (([("VAL + 1").toList, ("  VAL + 2").toList]).map
          (fun l => strip l ++ [' '])).flatten, noDescrText⟩] :=
  C5_amended_fenced_lines_stripped_joined
    [("VAL + 1").toList, ("  VAL + 2").toList]
    (by
      intro l hl
      fin_cases hl <;> exact ⟨by decide, by decide, by decide⟩)

/-- Claim C8 counterexample: a project whose only file cannot be read
yields zero Error diagnostics, one Warning-severity Parser diagnostic, and
a score of 98 — not a single Error diagnostic with a score of 0. -/
theorem C8_unreadable_yields_warning_not_error :
    unreadableRun.errors.length = 0 ∧
      unreadableRun.warnings = [⟨"Parser", "File Readable", "model.tmdl", []⟩] ∧
      unreadableRun.score = 98 ∧ ¬ unreadableRun.score = 0 := by decide

/-- Claim C8 amended: a file whose read fails contributes exactly one
Warning-severity Parser diagnostic (worth −2) and the pipeline continues;
each project of a batch is validated by its own fresh validator, so a
project's result depends only on that project's input; the unreadable
single-file project scores 98. -/
theorem C8_amended_unreadable_warning_and_isolation :
    (∀ cfg ov (name : String) (st : VState),
      runFileChecks cfg ov ⟨name, none⟩ st =
        addWarn st ⟨"Parser", "File Readable", name, []⟩) ∧
    (∀ cfg (ps₁ ps₂ : List Project) (i : Nat), ps₁[i]? = ps₂[i]? →
      (runProjects cfg ps₁)[i]? = (runProjects cfg ps₂)[i]?) ∧
    unreadableRun.score = 98 := by
  refine ⟨fun _ _ _ _ => rfl, ?_, by decide⟩
  intro cfg ps₁ ps₂ i h
  simp [runProjects, List.getElem?_map, h]

/-- Witness for the amended C8 theorem at concrete inputs. -/
theorem C8_amended_unreadable_warning_and_isolation_witness :
    runFileChecks cfgAllRules noOverrides ⟨"model.tmdl", none⟩ initState =
      addWarn initState ⟨"Parser", "File Readable", "model.tmdl", []⟩ ∧
    (runProjects cfgAllRules [⟨noOverrides, [], []⟩])[0]? =
      (runProjects cfgAllRules [⟨noOverrides, [], []⟩])[0]? :=
  ⟨C8_amended_unreadable_warning_and_isolation.1 cfgAllRules noOverrides
     "model.tmdl" initState,
   C8_amended_unreadable_warning_and_isolation.2.1 cfgAllRules
     [⟨noOverrides, [], []⟩] [⟨noOverrides, [], []⟩] 0 rfl⟩

/-- Claim C3: within one alias group of `has_skip_comment`, a skip
directive naming any member suppresses a check requested under any other
member — the relation is symmetric and transitive inside the group; and a
matching skip comment indeed suppresses the bidirectional diagnostic: the
check appends no error. -/
theorem C3_alias_skip_suppresses :
    (∀ (e : String × List String), e ∈ code_aliases →
      ∀ c1 c2 : String, c1 ∈ aliasGroupOf e → c2 ∈ aliasGroupOf e →
      ∀ content : Str, hasSkipPattern content c1.toList = true →
      has_skip_comment content c2 = true) ∧
    (∀ ov (content : Str) (file : String) (st : VState),
      has_skip_comment content "bi_di_filter" = true →
      (check_bidirectional_filter ov content file st).errors = st.errors) := by
  constructor
  · intro e he c1 c2 h1 h2 content hs
    simp only [has_skip_comment, List.any_eq_true]
    fin_cases he <;> fin_cases h1 <;> fin_cases h2 <;>
      exact ⟨_, by decide, hs⟩
  · intro ov content file st hsk
    unfold check_bidirectional_filter
    by_cases ha : "bi_directional_filters" ∈ ov.allows <;>
      simp [runCheckAllowed, runHasSkip, addSkip, ha, hsk]

/-- Witness for C3: the directive `// SKIP_CHECK: bidi - approved`
suppresses the check requested as `bi_di_filter`, and the bidirectional
check emits no error on a file carrying both the directive and a
bidirectional filter. -/
theorem C3_alias_skip_suppresses_witness :
    has_skip_comment (("// SKIP_CHECK: bidi - approved").toList)
        "bi_di_filter" = true ∧
      (check_bidirectional_filter noOverrides
        (("// SKIP_CHECK: bidi - approved\ncrossFilteringBehavior: both").toList)
        "relationships.tmdl" initState).errors = [] :=
  ⟨C3_alias_skip_suppresses.1
     ("bi_directional_filters", ["bi_di_filter", "bi_directional", "bidi"])
     (by decide) "bidi" "bi_di_filter" (by decide) (by decide) _ (by decide),
   (C3_alias_skip_suppresses.2 noOverrides
     (("// SKIP_CHECK: bidi - approved\ncrossFilteringBehavior: both").toList)
     "relationships.tmdl" initState (by decide)).trans rfl⟩

theorem cmdStep_fields (file : String) (st : VState) (m : Str × Str) :
    (cmdStep file st m).errors = st.errors ∧
    (cmdStep file st m).warnings = st.warnings ++
      (if searchDescProp m.2 then []
       else [⟨"Documentation", "Missing description", file, [m.1]⟩]) ∧
    (cmdStep file st m).skipped = st.skipped ∧
    (cmdStep file st m).measureRefs = st.measureRefs := by
  by_cases hd : searchDescProp m.2 = true <;> simp [cmdStep, addWarn, hd]

theorem cmd_fields (content : Str) (file : String) : ∀ st : VState,
    (check_measure_descriptions content file st).errors = st.errors ∧
    (check_measure_descriptions content file st).warnings =
      st.warnings ++ mdWarns content file ∧
    (check_measure_descriptions content file st).skipped = st.skipped ∧
    (check_measure_descriptions content file st).measureRefs =
      st.measureRefs := by
  unfold check_measure_descriptions mdWarns
  generalize findMeasures content = ms
  induction ms with
  | nil => intro st; simp
  | cons m rest ih =>
    intro st
    simp only [List.foldl_cons, List.filterMap_cons]
    obtain ⟨ie, iw, is, ir⟩ := ih (cmdStep file st m)
    obtain ⟨se, sw, ss, sr⟩ := cmdStep_fields file st m
    refine ⟨ie.trans se, ?_, is.trans ss, ir.trans sr⟩
    rw [iw, sw]
    by_cases hd : searchDescProp m.2 = true <;>
      simp [hd, List.append_assoc]

theorem applyCheck_fields (cfg : Config) (ov : Overrides) (content : Str)
    (file : String) (c : CheckId) (hc : ¬ c = CheckId.unusedMeasures)
    (st : VState) :
    (applyCheck cfg ov content file c st).errors =
      st.errors ++ checkErrs cfg ov content file c ∧
    (applyCheck cfg ov content file c st).warnings =
      st.warnings ++ checkWarns cfg ov content file c := by
  cases c with
  | unusedMeasures => exact absurd rfl hc
  | autoDateTime =>
    by_cases hg : cfg.auto_date_time = true <;>
      by_cases ha : "auto_date_time" ∈ ov.allows <;>
        by_cases h1 : has_skip_comment content "auto_date_time" = true <;>
          by_cases h2 : searchAutoProp content = true <;>
            by_cases h3 : searchAutoLegacy content = true <;>
              simp [applyCheck, checkErrs, checkWarns, check_auto_datetime,
                runCheckAllowed, runHasSkip, addErr, addWarn, addSkip,
                initState, hg, ha, h1, h2, h3]
  | bidirectionalFilter =>
    by_cases hg : cfg.bi_directional_filters = true <;>
      by_cases ha : "bi_directional_filters" ∈ ov.allows <;>
        by_cases h1 : has_skip_comment content "bi_di_filter" = true <;>
          by_cases h2 : searchBidi content = true <;>
            simp [applyCheck, checkErrs, checkWarns, check_bidirectional_filter,
              runCheckAllowed, runHasSkip, addErr, addWarn, addSkip,
              initState, hg, ha, h1, h2]
  | manyToMany =>
    by_cases hg : cfg.many_to_many = true <;>
      by_cases ha : "many_to_many" ∈ ov.allows <;>
        by_cases h2 : searchM2M content = true <;>
          simp [applyCheck, checkErrs, checkWarns, check_many_to_many,
            runCheckAllowed, addErr, addSkip, initState, hg, ha, h2]
  | namingConvention =>
    by_cases ha : "naming_convention" ∈ ov.allows
    · simp [applyCheck, checkErrs, checkWarns, check_naming_convention,
        runCheckAllowed, addSkip, initState, ha]
    · cases hm : searchTableName content with
      | none =>
        simp [applyCheck, checkErrs, checkWarns, check_naming_convention,
          runCheckAllowed, addSkip, initState, ha, hm]
      | some name =>
        by_cases hsys : isSystemTableName name = true <;>
          by_cases hbad : tableNameBad name = true <;>
            simp [applyCheck, checkErrs, checkWarns, check_naming_convention,
              runCheckAllowed, addWarn, addSkip, initState, ha, hm, hsys, hbad]
  | dateTableMode =>
    simp [applyCheck, checkErrs, checkWarns, check_date_table_mode, initState]
  | measureDescriptions =>
    have h1 := cmd_fields content file st
    have h2 := cmd_fields content file initState
    simp only [applyCheck, checkErrs, checkWarns]
    rw [h1.1, h1.2.1, h2.1, h2.2.1]
    simp [initState]

theorem runChecksSeq_fields (cfg : Config) (ov : Overrides) (content : Str)
    (file : String) :
    ∀ (order : List CheckId), CheckId.unusedMeasures ∉ order → ∀ st : VState,
      (runChecksSeq cfg ov content file order st).errors =
        st.errors ++ order.flatMap (checkErrs cfg ov content file) ∧
      (runChecksSeq cfg ov content file order st).warnings =
        st.warnings ++ order.flatMap (checkWarns cfg ov content file) := by
  intro order
  induction order with
  | nil => intro _ st; simp [runChecksSeq]
  | cons c rest ih =>
    intro hno st
    have hc : ¬ c = CheckId.unusedMeasures := fun hcc => hno (by simp [hcc])
    have hrest : CheckId.unusedMeasures ∉ rest := fun hm => hno (by simp [hm])
    have hstep := applyCheck_fields cfg ov content file c hc st
    have hih := ih hrest (applyCheck cfg ov content file c st)
    unfold runChecksSeq at hih ⊢
    simp only [List.foldl_cons, List.flatMap_cons]
    rw [hih.1, hih.2, hstep.1, hstep.2]
    simp [List.append_assoc]

/-- Claim C9 counterexample: the unused-measures rule reads the measure
inventory that the measure-description rule populates, so running the two
in the opposite order changes the diagnostic set — on a model with one
unreferenced, undescribed measure, one order yields two warnings and the
other only one. -/
theorem C9_order_dependence_unused_measures :
    ((runChecksSeq cfgAllRules noOverrides c9Content "T.tmdl"
        [CheckId.measureDescriptions, CheckId.unusedMeasures]
        c9Init).warnings).length = 2 ∧
      ((runChecksSeq cfgAllRules noOverrides c9Content "T.tmdl"
        [CheckId.unusedMeasures, CheckId.measureDescriptions]
        c9Init).warnings).length = 1 := by decide

/-- Claim C9 amended: the content-based rules are order-independent — any
permutation of an order avoiding the unused-measures rule yields a
permutation of the same error and warning lists (the same diagnostic
multiset) — but the unused-measures rule depends on the inventory written
by the measure-description rule and is order-dependent. -/
theorem C9_amended_content_rules_order_independent (cfg : Config)
    (ov : Overrides) (content : Str) (file : String)
    (o₁ o₂ : List CheckId) (hperm : o₁.Perm o₂)
    (hno : CheckId.unusedMeasures ∉ o₁) (st : VState) :
    ((runChecksSeq cfg ov content file o₁ st).errors).Perm
        ((runChecksSeq cfg ov content file o₂ st).errors) ∧
      ((runChecksSeq cfg ov content file o₁ st).warnings).Perm
        ((runChecksSeq cfg ov content file o₂ st).warnings) := by
  have hno₂ : CheckId.unusedMeasures ∉ o₂ := fun hm => hno (hperm.mem_iff.mpr hm)
  obtain ⟨he₁, hw₁⟩ := runChecksSeq_fields cfg ov content file o₁ hno st
  obtain ⟨he₂, hw₂⟩ := runChecksSeq_fields cfg ov content file o₂ hno₂ st
  rw [he₁, he₂, hw₁, hw₂]
  exact ⟨(hperm.flatMap_right _).append_left _,
    (hperm.flatMap_right _).append_left _⟩

/-- Witness for the amended C9 theorem: swapping the naming and
bidirectional rules permutes the warning list on a concrete model. -/
theorem C9_amended_content_rules_order_independent_witness :
    ((runChecksSeq cfgAllRules noOverrides c9Content "T.tmdl"
        [CheckId.namingConvention, CheckId.bidirectionalFilter]
        c9Init).warnings).Perm
      ((runChecksSeq cfgAllRules noOverrides c9Content "T.tmdl"
        [CheckId.bidirectionalFilter, CheckId.namingConvention]
        c9Init).warnings) :=
  (C9_amended_content_rules_order_independent cfgAllRules noOverrides
    c9Content "T.tmdl"
    [CheckId.namingConvention, CheckId.bidirectionalFilter]
    [CheckId.bidirectionalFilter, CheckId.namingConvention]
    (List.Perm.swap CheckId.bidirectionalFilter CheckId.namingConvention [])
    (by decide) c9Init).2

theorem runFileChecks_warnings_append (cfg : Config) (ov : Overrides)
    (f : TmdlFile) (st : VState) :
    (runFileChecks cfg ov f st).warnings = st.warnings ++ fileWarns cfg ov f := by
  cases hf : f.content with
  | none => simp [runFileChecks, hf, fileWarns, addWarn, initState]
  | some content =>
    have h1 := (runChecksSeq_fields cfg ov content f.name fileCheckOrder
      (by decide) st).2
    have h2 := (runChecksSeq_fields cfg ov content f.name fileCheckOrder
      (by decide) initState).2
    simp only [runFileChecks, hf, fileWarns]
    rw [h1, h2]
    simp [initState]

theorem foldl_runFileChecks_warnings (cfg : Config) (ov : Overrides)
    (files : List TmdlFile) :
    ∀ st : VState,
      ((files.foldl (fun s f => runFileChecks cfg ov f s) st)).warnings =
        st.warnings ++ files.flatMap (fileWarns cfg ov) := by
  induction files with
  | nil => intro st; simp
  | cons f rest ih =>
    intro st
    simp only [List.foldl_cons, List.flatMap_cons]
    rw [ih, runFileChecks_warnings_append, List.append_assoc]

theorem collectAllRefs_warnings (files : List TmdlFile)
    (visuals : List VisualFile) :
    ∀ st : VState, (collectAllRefs files visuals st).warnings = st.warnings := by
  unfold collectAllRefs
  have hv : ∀ (vs : List VisualFile) (st : VState),
      ((vs.foldl
        (fun s v =>
          match v.content with
          | some c => collect_references c s
          | none => s) st)).warnings = st.warnings := by
    intro vs
    induction vs with
    | nil => intro st; rfl
    | cons v rest ih =>
      intro st
      simp only [List.foldl_cons]
      rw [ih]
      cases v.content <;> rfl
  have ht : ∀ (fs : List TmdlFile) (st : VState),
      ((fs.foldl
        (fun s f =>
          match f.content with
          | some c => collect_references c s
          | none => s) st)).warnings = st.warnings := by
    intro fs
    induction fs with
    | nil => intro st; rfl
    | cons f rest ih =>
      intro st
      simp only [List.foldl_cons]
      rw [ih]
      cases f.content <;> rfl
  intro st
  rw [hv, ht]

theorem check_hardcoded_colors_warnings (visuals : List VisualFile) :
    ∀ st : VState, (check_hardcoded_colors visuals st).warnings = st.warnings := by
  unfold check_hardcoded_colors
  induction visuals with
  | nil => intro st; rfl
  | cons v rest ih =>
    intro st
    simp only [List.foldl_cons]
    rw [ih]
    cases v.content with
    | none => rfl
    | some c =>
      by_cases hcp : v.colorProps.isEmpty = true <;> simp [hcp, addErr]

theorem check_unused_measures_warnings_sublist (ov : Overrides) (st : VState) :
    st.warnings.Sublist (check_unused_measures ov st).warnings := by
  unfold check_unused_measures
  by_cases ha : "unused_measures" ∈ ov.allows
  · simp [runCheckAllowed, ha, addSkip]
  · by_cases hu : (unusedList st.allMeasures st.measureRefs).isEmpty = true <;>
      simp [runCheckAllowed, ha, hu, addWarn, List.sublist_append_left]

theorem runCheckAllowed_snd_warnings (ov : Overrides) (n : String)
    (st : VState) : (runCheckAllowed ov n st).2.warnings = st.warnings := by
  unfold runCheckAllowed
  by_cases ha : n ∈ ov.allows <;> simp [ha, addSkip]

theorem sublist_flatMap_of_mem {α β : Type} (f : α → List β) {l : List α}
    {a : α} (h : a ∈ l) : (f a).Sublist (l.flatMap f) := by
  induction l with
  | nil => cases h
  | cons x xs ih =>
    simp only [List.flatMap_cons]
    rcases List.mem_cons.mp h with h1 | h2
    · subst h1
      exact List.sublist_append_left _ _
    · exact (ih h2).trans (List.sublist_append_right _ _)

/-- Claim C6 amended: processing never raises — an unreadable file becomes
one Parser warning, a measure block truncated at end of file is handled by
the end-anchor path of the scan — and each file's diagnostics appear in the
run's warning list no matter what the other files contain; no Block with
keyword `malformed` exists in the output (there is no block stream). -/
theorem C6_amended_per_file_isolation (cfg : Config) (ov : Overrides)
    (files : List TmdlFile) (visuals : List VisualFile) (f : TmdlFile)
    (hf : f ∈ files) :
    (fileWarns cfg ov f).Sublist
      (validate_pbip cfg ov files visuals).warnings := by
  have hne : (files.isEmpty && visuals.isEmpty) = false := by
    cases files with
    | nil => cases hf
    | cons a l => rfl
  unfold validate_pbip
  simp only [hne, Bool.false_eq_true, if_false]
  refine List.Sublist.trans ?_ (check_unused_measures_warnings_sublist ov _)
  by_cases hv : visuals.isEmpty = true
  · simp only [hv, if_true]
    rw [foldl_runFileChecks_warnings, collectAllRefs_warnings]
    simp only [apply_ite VState.warnings, runCheckAllowed_snd_warnings, addErr,
      initState, ite_self, List.nil_append]
    exact sublist_flatMap_of_mem (fileWarns cfg ov) hf
  · simp only [hv, Bool.false_eq_true, if_false]
    rw [check_hardcoded_colors_warnings, foldl_runFileChecks_warnings,
      collectAllRefs_warnings]
    simp only [apply_ite VState.warnings, runCheckAllowed_snd_warnings, addErr,
      initState, ite_self, List.nil_append]
    exact sublist_flatMap_of_mem (fileWarns cfg ov) hf

/-- Witness for the amended C6 theorem: the healthy file's diagnostics
survive the truncated file in the same run. -/
theorem C6_amended_per_file_isolation_witness :
    (fileWarns cfgAllRules noOverrides otherFile).Sublist
      (validate_pbip cfgAllRules noOverrides [truncatedFile, otherFile]
        []).warnings :=
  C6_amended_per_file_isolation cfgAllRules noOverrides
    [truncatedFile, otherFile] [] otherFile (by decide)

/-- Claim C6 counterexample: on a run whose first file holds a measure
block truncated by end of file, nothing crashes and the other file's
diagnostics are still produced, but no record marked `malformed` appears
anywhere in the output — the malformed-Block contract of the spec has no
counterpart in the code. -/
theorem C6_no_malformed_block_emitted :
    specMalformedBlockEmitted c6Run = false ∧
      (c6Run.warnings.filter (fun w => w.file == "Other.tmdl")).length = 1 ∧
      c6Run.errors.length = 0 ∧ c6Run.warnings.length = 3 := by decide

end BIStd
